import Mathlib

/-!
Verification of the versatiles-rs tile-archive library against its
natural-language specification.  The Rust source is shallowly embedded:
byte buffers are `List Nat` (each element a byte value), fallible Rust
functions return `Except String`, and Rust panics are an explicit
`panicked` outcome.  Machine integers are modelled as `Nat`; the few
places where `u64` overflow could occur (cursor arithmetic) stay within
`Nat` because the claims under study never exercise wrap-around.
-/

namespace Versatiles

/-! ### Byte-cursor model: `ValueReaderBlob` (src/types/io/value_reader_blob.rs)

`ValueReaderBlob` wraps a `Cursor<Vec<u8>>` together with the blob length.
The stored `len` field always equals the data length (it is set from
`blob.len()` in `new`), so the model keeps only the data and the cursor
position and defines `len` as the data length. -/

structure ValueReaderBlob where
  data : List Nat
  pos : Nat
deriving DecidableEq

def ValueReaderBlob.len (r : ValueReaderBlob) : Nat := r.data.length

def ValueReaderBlob.position (r : ValueReaderBlob) : Nat := r.pos

/-- `set_position` from value_reader_blob.rs: bails with
"set position outside length" when `position >= self.len`, otherwise moves
the cursor. -/
def ValueReaderBlob.setPosition (r : ValueReaderBlob) (p : Nat) :
    Except String ValueReaderBlob :=
  if r.len ≤ p then .error "set position outside length"
  else .ok { r with pos := p }

/-- Reading one byte through the cursor: returns the byte at the current
position and advances, or fails at end of data. -/
def ValueReaderBlob.readU8 (r : ValueReaderBlob) :
    Except String (Nat × ValueReaderBlob) :=
  match r.data.get? r.pos with
  | some b => .ok (b, { r with pos := r.pos + 1 })
  | none => .error "failed to fill whole buffer"

/-- Rust `slice.get(start..end)`: `Some` of the sub-slice when
`start <= end` and `end <= len`, otherwise `None`. -/
def rustSliceGet (l : List Nat) (s e : Nat) : Option (List Nat) :=
  if s ≤ e ∧ e ≤ l.length then some ((l.drop s).take (e - s)) else none

/-- `get_sub_reader` from value_reader_blob.rs.  The source first sets the
parent cursor to `start + length` and only then slices
`data.get(start..end)`, erroring with "out of bounds" when the slice does
not exist; the parent cursor is advanced in both branches.  The result
pairs the (possibly mutated) parent with the `Result`; the sub-reader is a
fresh cursor at position 0 over the sliced bytes. -/
def ValueReaderBlob.getSubReader (r : ValueReaderBlob) (n : Nat) :
    ValueReaderBlob × Except String ValueReaderBlob :=
  match rustSliceGet r.data r.pos (r.pos + n) with
  | some sub => ({ r with pos := r.pos + n }, .ok { data := sub, pos := 0 })
  | none => ({ r with pos := r.pos + n }, .error "out of bounds")

/-! ### Varint codec

`read_varint` lives in the `ValueReader` trait, whose file is not part of
the provided sources (only its tests in value_reader_blob.rs are).  It is
therefore modelled from the spec. -/

/-- Modelled from the spec: the loop of `read_varint` (unsigned LEB128,
"fails after 9 continuation bytes").  Processes one byte per step,
accumulating 7 payload bits at the current shift; a continuation byte
arriving once the shift has reached 63 (i.e. a 10th continuation byte) is
an error, matching the test that ten `0x80` bytes fail. -/
def readVarintLoop : List Nat → Nat → Nat → Except String (Nat × List Nat)
  | [], _, _ => .error "failed to fill whole buffer"
  | b :: rest, shift, acc =>
    if b < 128 then .ok (acc + b % 128 * 2 ^ shift, rest)
    else if 63 ≤ shift then .error "varint is too long"
    else readVarintLoop rest (shift + 7) (acc + b % 128 * 2 ^ shift)

/-- Modelled from the spec: `read_varint` (unsigned LEB128).  Returns the
decoded value together with the bytes left unread. -/
def readVarint (bytes : List Nat) : Except String (Nat × List Nat) :=
  readVarintLoop bytes 0 0

/-- Modelled from the spec: `write_varint`, the unsigned LEB128 encoder
(low 7 bits first, continuation bit 0x80 on every byte but the last). -/
def writeVarint (v : Nat) : List Nat :=
  if h : v < 128 then [v] else (v % 128 + 128) :: writeVarint (v / 128)
decreasing_by
  exact Nat.div_lt_self (Nat.lt_of_lt_of_le (by norm_num) (Nat.le_of_not_lt h)) (by norm_num)

/-! #### Varint lemmas -/

lemma readVarintLoop_append_encode (v : Nat) :
    ∀ shift acc rest, v < 2 ^ (63 - shift) →
      readVarintLoop (writeVarint v ++ rest) shift acc = .ok (acc + v * 2 ^ shift, rest) := by
  induction v using Nat.strong_induction_on with
  | _ v ih =>
    intro shift acc rest hv
    rw [writeVarint]
    by_cases h : v < 128
    · simp only [dif_pos h, List.cons_append, List.nil_append, readVarintLoop, if_pos h,
        Nat.mod_eq_of_lt h]
    · have hb : ¬ (v % 128 + 128 < 128) := by omega
      have hsmall : (128 : Nat) ≤ v := Nat.le_of_not_lt h
      -- v ≥ 128 and v < 2^(63-shift) force 63 - shift ≥ 8, hence shift ≤ 55
      have hpow : (2 : Nat) ^ 7 < 2 ^ (63 - shift) := by
        calc (2 : Nat) ^ 7 = 128 := by norm_num
        _ ≤ v := hsmall
        _ < 2 ^ (63 - shift) := hv
      have hexp : 7 < 63 - shift := (Nat.pow_lt_pow_iff_right (by norm_num)).mp hpow
      have hshift : ¬ (63 ≤ shift) := by omega
      have hdiv : v / 128 < 2 ^ (63 - (shift + 7)) := by
        have h63 : 63 - (shift + 7) + 7 = 63 - shift := by omega
        have : v < 2 ^ (63 - (shift + 7)) * 128 := by
          calc v < 2 ^ (63 - shift) := hv
          _ = 2 ^ (63 - (shift + 7) + 7) := by rw [h63]
          _ = 2 ^ (63 - (shift + 7)) * 2 ^ 7 := by rw [pow_add]
          _ = 2 ^ (63 - (shift + 7)) * 128 := by norm_num
        exact Nat.div_lt_of_lt_mul (by linarith [this])
      have hrec := ih (v / 128) (Nat.div_lt_self (by omega) (by norm_num))
        (shift + 7) (acc + (v % 128 + 128) % 128 * 2 ^ shift) rest hdiv
      simp only [dif_neg h, List.cons_append, readVarintLoop, if_neg hb, if_neg hshift, hrec]
      congr 2
      have hmod : (v % 128 + 128) % 128 = v % 128 := by omega
      rw [hmod, pow_add]
      have hsum : v % 128 * 2 ^ shift + v / 128 * (2 ^ shift * 2 ^ 7) =
          (v % 128 + v / 128 * 128) * 2 ^ shift := by
        rw [show (2 : Nat) ^ 7 = 128 from by norm_num]; ring
      have hrecomb : v % 128 + v / 128 * 128 = v := by omega
      rw [add_assoc, hsum, hrecomb]

lemma readVarintLoop_all_continuation :
    ∀ (bs : List Nat) (shift acc : Nat) (rest : List Nat),
      (∀ b ∈ bs, 128 ≤ b) → bs ≠ [] → 63 ≤ shift + 7 * (bs.length - 1) →
      ∃ e, readVarintLoop (bs ++ rest) shift acc = .error e := by
  intro bs
  induction bs with
  | nil => intro _ _ _ _ hne _; exact absurd rfl hne
  | cons b t iht =>
    intro shift acc rest hall _ hlen
    have hb : ¬ (b < 128) := Nat.not_lt.mpr (hall b (List.mem_cons_self b t))
    simp only [List.cons_append, readVarintLoop, if_neg hb]
    by_cases hs : 63 ≤ shift
    · exact ⟨"varint is too long", by rw [if_pos hs]⟩
    · rw [if_neg hs]
      have htne : t ≠ [] := by
        intro hnil
        simp [hnil] at hlen
        omega
      have htlen : 1 ≤ t.length := List.length_pos.mpr htne
      refine iht (shift + 7) _ rest (fun x hx => hall x (List.mem_cons_of_mem b hx)) htne ?_
      simp only [List.length_cons] at hlen
      omega

/-! ### Claim theorems for the byte-cursor and varint layer -/

/-- C4: `read_varint` decodes unsigned LEB128.  Any input whose first ten
bytes all carry the continuation bit fails; any value below `2^63` survives
an encode-then-decode round trip (with trailing bytes left unread); the
bytes `[0xAC, 0x02]` decode to 300. -/
theorem claim_c4 :
    (∀ (bs rest : List Nat), bs.length = 10 → (∀ b ∈ bs, 128 ≤ b ∧ b < 256) →
      ∃ e, readVarint (bs ++ rest) = .error e) ∧
    (∀ (v : Nat) (rest : List Nat), v < 2 ^ 63 →
      readVarint (writeVarint v ++ rest) = .ok (v, rest)) ∧
    readVarint [0xAC, 0x02] = .ok (300, []) := by
  refine ⟨?_, ?_, rfl⟩
  · intro bs rest hlen hall
    refine readVarintLoop_all_continuation bs 0 0 rest
      (fun b hb => (hall b hb).1) ?_ ?_
    · intro hnil; rw [hnil] at hlen; simp at hlen
    · rw [hlen]
  · intro v rest hv
    have h := readVarintLoop_append_encode v 0 0 rest (by simpa using hv)
    simpa using h

theorem claim_c4_witness :
    (∃ e, readVarint ([128, 128, 128, 128, 128, 128, 128, 128, 128, 128] ++ [0]) = .error e) ∧
    readVarint (writeVarint 300 ++ [7]) = .ok (300, [7]) :=
  ⟨claim_c4.1 [128, 128, 128, 128, 128, 128, 128, 128, 128, 128] [0] (by decide) (by decide),
   claim_c4.2.1 300 [7] (by decide)⟩

/-- C5: `set_position p` on a `ValueReaderBlob` of length `len` fails
exactly when `p ≥ len`; when `p < len` it succeeds, the resulting position
is `p`, and the next byte read starts at byte `p` of the data. -/
theorem claim_c5 (r : ValueReaderBlob) (p : Nat) :
    ((∃ e, r.setPosition p = .error e) ↔ r.len ≤ p) ∧
    (p < r.len →
      ∃ r2, r.setPosition p = .ok r2 ∧ r2.position = p ∧ r2.data = r.data ∧
        ∃ b, r.data.get? p = some b ∧
          r2.readU8 = .ok (b, { data := r.data, pos := p + 1 })) := by
  constructor
  · constructor
    · intro ⟨e, he⟩
      by_contra hlt
      simp only [ValueReaderBlob.setPosition, if_neg hlt] at he
      exact Except.noConfusion he
    · intro hge
      exact ⟨"set position outside length", by simp [ValueReaderBlob.setPosition, hge]⟩
  · intro hlt
    have hne : ¬ (r.len ≤ p) := Nat.not_le.mpr hlt
    refine ⟨{ r with pos := p }, by simp [ValueReaderBlob.setPosition, hne], rfl, rfl, ?_⟩
    have hlen : p < r.data.length := hlt
    have hb : r.data.get? p = some (r.data.get ⟨p, hlen⟩) := List.get?_eq_get hlen
    exact ⟨r.data.get ⟨p, hlen⟩, hb, by simp only [ValueReaderBlob.readU8, hb]⟩

theorem claim_c5_witness :
    ∃ r2, ValueReaderBlob.setPosition ⟨[1, 2, 3, 4], 0⟩ 2 = .ok r2 ∧
      r2.position = 2 ∧ r2.data = [1, 2, 3, 4] ∧
      ∃ b, [1, 2, 3, 4].get? 2 = some b ∧
        r2.readU8 = .ok (b, { data := [1, 2, 3, 4], pos := 3 }) :=
  (claim_c5 ⟨[1, 2, 3, 4], 0⟩ 2).2 (by decide)

/-- C6: `get_sub_reader n` at position `s` over data of length `L`
succeeds exactly when `s + n ≤ L`; on success the sub-reader has length
`n`, starts at position 0, holds exactly bytes `[s, s+n)` of the parent
data, and the parent position becomes `s + n`. -/
theorem claim_c6 (r : ValueReaderBlob) (n : Nat) :
    ((∃ sub, (r.getSubReader n).2 = .ok sub) ↔ r.pos + n ≤ r.len) ∧
    (∀ sub, (r.getSubReader n).2 = .ok sub →
      sub.len = n ∧ sub.pos = 0 ∧ sub.data = (r.data.drop r.pos).take n ∧
      (r.getSubReader n).1 = { data := r.data, pos := r.pos + n }) := by
  have hle : r.pos ≤ r.pos + n := Nat.le_add_right r.pos n
  constructor
  · constructor
    · intro ⟨sub, hsub⟩
      by_contra hgt
      have : ¬ (r.pos ≤ r.pos + n ∧ r.pos + n ≤ r.data.length) := by
        intro ⟨_, h2⟩; exact hgt h2
      simp only [ValueReaderBlob.getSubReader, rustSliceGet, if_neg this] at hsub
      exact Except.noConfusion hsub
    · intro hok
      refine ⟨{ data := (r.data.drop r.pos).take n, pos := 0 }, ?_⟩
      have hcond : r.pos ≤ r.pos + n ∧ r.pos + n ≤ r.data.length := ⟨hle, hok⟩
      simp [ValueReaderBlob.getSubReader, rustSliceGet, hcond]
  · intro sub hsub
    by_cases hcond : r.pos ≤ r.pos + n ∧ r.pos + n ≤ r.data.length
    · simp only [ValueReaderBlob.getSubReader, rustSliceGet, if_pos hcond,
        Except.ok.injEq] at hsub
      subst hsub
      refine ⟨?_, rfl, by simp, ?_⟩
      · simp only [ValueReaderBlob.len, List.length_take, List.length_drop]
        omega
      · simp [ValueReaderBlob.getSubReader, rustSliceGet, hcond]
    · simp only [ValueReaderBlob.getSubReader, rustSliceGet, if_neg hcond] at hsub
      exact Except.noConfusion hsub

theorem claim_c6_witness :
    ((∃ sub, (ValueReaderBlob.getSubReader ⟨[1, 2, 3, 4, 5], 1⟩ 3).2 = .ok sub) ↔
      1 + 3 ≤ ValueReaderBlob.len ⟨[1, 2, 3, 4, 5], 1⟩) ∧
    ∀ sub, (ValueReaderBlob.getSubReader ⟨[1, 2, 3, 4, 5], 1⟩ 3).2 = .ok sub →
      sub.len = 3 ∧ sub.pos = 0 ∧ sub.data = ([1, 2, 3, 4, 5].drop 1).take 3 ∧
      (ValueReaderBlob.getSubReader ⟨[1, 2, 3, 4, 5], 1⟩ 3).1 =
        { data := [1, 2, 3, 4, 5], pos := 1 + 3 } :=
  claim_c6 ⟨[1, 2, 3, 4, 5], 1⟩ 3

/-- C10: `get_sub_reader` advances the parent cursor to `s + n` before the
bounds check, so even when the call fails with "out of bounds" (i.e. when
`s + n` exceeds the data length) the parent position has been advanced;
the call is not atomic on error. -/
theorem claim_c10 (r : ValueReaderBlob) (n : Nat) :
    (r.getSubReader n).1.position = r.pos + n ∧
    (r.len < r.pos + n →
      (r.getSubReader n).2 = .error "out of bounds" ∧
      (r.getSubReader n).1 = { data := r.data, pos := r.pos + n }) := by
  have hfst : ∀ (c : Option (List Nat)),
      (match c with
        | some sub => (({ r with pos := r.pos + n } : ValueReaderBlob),
            (.ok { data := sub, pos := 0 } : Except String ValueReaderBlob))
        | none => ({ r with pos := r.pos + n }, .error "out of bounds")).1 =
        { data := r.data, pos := r.pos + n } := by
    intro c; cases c <;> rfl
  constructor
  · show (r.getSubReader n).1.pos = r.pos + n
    rw [ValueReaderBlob.getSubReader, hfst]
  · intro hover
    have hcond : ¬ (r.pos ≤ r.pos + n ∧ r.pos + n ≤ r.data.length) := by
      intro ⟨_, h2⟩
      exact absurd h2 (Nat.not_le.mpr hover)
    constructor
    · have h2 : ¬ (r.pos + n ≤ r.data.length) := Nat.not_le.mpr hover
      simp [ValueReaderBlob.getSubReader, rustSliceGet, h2]
    · rw [ValueReaderBlob.getSubReader, hfst]

theorem claim_c10_witness :
    (ValueReaderBlob.getSubReader ⟨[1, 2], 1⟩ 4).2 = .error "out of bounds" ∧
    (ValueReaderBlob.getSubReader ⟨[1, 2], 1⟩ 4).1 = { data := [1, 2], pos := 1 + 4 } :=
  (claim_c10 ⟨[1, 2], 1⟩ 4).2 (by decide)

/-! ### VDL nodes (versatiles/src/utils/vdl/vdl_node.rs) -/

/-- The single-quote character, used when building error messages. -/
def sq : String := String.singleton (Char.ofNat 39)

/-- The double-quote character, used when building panic messages that
Debug-format a string. -/
def dq : String := String.singleton (Char.ofNat 34)

/-- A VDL operation node: a name, a property map (string to list of
strings), and child pipelines (a pipeline is a list of nodes). -/
inductive VDLNode : Type where
  | mk (name : String) (properties : List (String × List String))
      (children : List (List VDLNode)) : VDLNode

def VDLNode.name : VDLNode → String
  | .mk n _ _ => n

def VDLNode.properties : VDLNode → List (String × List String)
  | .mk _ p _ => p

/-- `HashMap::get` on the property map, modelled as association-list
lookup (a `HashMap` holds each key at most once). -/
def VDLNode.getProperty (n : VDLNode) (field : String) : Option (List String) :=
  n.properties.lookup field

/-- `get_property0` from vdl_node.rs: an absent field is `Ok(None)`; a
present field must hold exactly one entry, otherwise the call errors with
"field '<f>' must have exactly one entry"; a single entry comes back as
`Ok(Some(entry))` (via `list.get(0)`). -/
def VDLNode.getProperty0 (n : VDLNode) (field : String) :
    Except String (Option String) :=
  match n.getProperty field with
  | none => .ok none
  | some list =>
    if list.length = 1 then .ok (list.get? 0)
    else .error ("field " ++ sq ++ field ++ sq ++ " must have exactly one entry")

/-- `get_property1` from vdl_node.rs: `get_property0` with `Ok(None)`
turned into the error "field '<f>' does not exist". -/
def VDLNode.getProperty1 (n : VDLNode) (field : String) : Except String String :=
  match n.getProperty0 field with
  | .error e => .error e
  | .ok none => .error ("field " ++ sq ++ field ++ sq ++ " does not exist")
  | .ok (some v) => .ok v

/-- `get_property_string1` is `get_property1` followed by `to_string`
(the identity in this model). -/
def VDLNode.getPropertyString1 (n : VDLNode) (field : String) :
    Except String String :=
  n.getProperty1 field

/-- C7: the required-property accessor errors with
"field '<f>' does not exist" when the field is absent, errors with
"field '<f>' must have exactly one entry" when the field maps to a list
whose length is not 1, and otherwise returns the single entry. -/
theorem claim_c7 (n : VDLNode) (f : String) :
    (n.properties.lookup f = none →
      n.getPropertyString1 f =
        .error ("field " ++ sq ++ f ++ sq ++ " does not exist")) ∧
    (∀ l, n.properties.lookup f = some l → l.length ≠ 1 →
      n.getPropertyString1 f =
        .error ("field " ++ sq ++ f ++ sq ++ " must have exactly one entry")) ∧
    (∀ v, n.properties.lookup f = some [v] →
      n.getPropertyString1 f = .ok v) := by
  refine ⟨?_, ?_, ?_⟩
  · intro habs
    simp [VDLNode.getPropertyString1, VDLNode.getProperty1, VDLNode.getProperty0,
      VDLNode.getProperty, habs]
  · intro l hl hlen
    simp only [VDLNode.getPropertyString1, VDLNode.getProperty1, VDLNode.getProperty0,
      VDLNode.getProperty, hl, if_neg hlen]
  · intro v hv
    simp [VDLNode.getPropertyString1, VDLNode.getProperty1, VDLNode.getProperty0,
      VDLNode.getProperty, hv]

theorem claim_c7_witness :
    (VDLNode.mk "pbf_update_properties" [("layer", ["x"]), ("two", ["a", "b"])] []
        |>.getPropertyString1 "id_field") =
      .error ("field " ++ sq ++ "id_field" ++ sq ++ " does not exist") ∧
    (VDLNode.mk "pbf_update_properties" [("layer", ["x"]), ("two", ["a", "b"])] []
        |>.getPropertyString1 "two") =
      .error ("field " ++ sq ++ "two" ++ sq ++ " must have exactly one entry") ∧
    (VDLNode.mk "pbf_update_properties" [("layer", ["x"]), ("two", ["a", "b"])] []
        |>.getPropertyString1 "layer") = .ok "x" :=
  ⟨(claim_c7 (VDLNode.mk "pbf_update_properties" [("layer", ["x"]), ("two", ["a", "b"])] [])
      "id_field").1 rfl,
   (claim_c7 (VDLNode.mk "pbf_update_properties" [("layer", ["x"]), ("two", ["a", "b"])] [])
      "two").2.1 ["a", "b"] rfl (by decide),
   (claim_c7 (VDLNode.mk "pbf_update_properties" [("layer", ["x"]), ("two", ["a", "b"])] [])
      "layer").2.2 "x" rfl⟩

/-! ### Container front-end (src/lib/versatiles_container/src/lib.rs) and
the MBT converter stub (src/lib/versatiles_container/src/mbtiles/converter.rs) -/

/-- The error taxonomy of the spec (§7). -/
inductive ContainerError : Type where
  | notFound
  | corrupt
  | ioError
  | unsupported
  | config
  | cancelled
deriving DecidableEq

/-- Outcome of calling a Rust function: a normal return, an `Err`, or a
panic carrying its message. -/
inductive Outcome (ε α : Type) : Type where
  | ok (a : α)
  | err (e : ε)
  | panicked (msg : String)

/-- Whether an outcome is an `Err` return (as opposed to success or a
panic). -/
def Outcome.isErr {ε α : Type} : Outcome ε α → Bool
  | .err _ => true
  | _ => false

/-- The three archive container kinds the front-end can dispatch to. -/
inductive ContainerKind : Type where
  | mbtiles
  | tar
  | versatiles
deriving DecidableEq

/-- Rust `str::split(sep)` over the characters of a string: always yields
at least one (possibly empty) piece. -/
def splitOnChar : List Char → Char → List (List Char)
  | [], _ => [[]]
  | c :: rest, sep =>
    let r := splitOnChar rest sep
    if c = sep then [] :: r
    else (c :: r.headD []) :: r.tail

/-- `filename.split('.').last().unwrap()` from `get_reader`: the last
'.'-separated segment (`split` is never empty, so the unwrap cannot
panic). -/
def lastDotSegment (filename : String) : String :=
  ((splitOnChar filename.data '.').getLastD []).asString

/-- Debug formatting (`{extension:?}`) of a plain string: the string in
double quotes (escapes do not arise in these claims). -/
def rustDebugStr (s : String) : String := dq ++ s ++ dq

/-- The panic message of `get_reader`/`get_converter` for an unknown
extension. -/
def unknownExtensionMsg (ext : String) : String :=
  "extension " ++ sq ++ rustDebugStr ext ++ sq ++ " unknown"

/-- `get_reader` from versatiles_container/src/lib.rs: dispatch on the
last '.'-separated segment of the filename; the construction of the
concrete reader (file I/O) is abstracted to its container kind. -/
def get_reader (filename : String) : Outcome ContainerError ContainerKind :=
  let extension := lastDotSegment filename
  if extension = "mbtiles" then .ok .mbtiles
  else if extension = "tar" then .ok .tar
  else if extension = "versatiles" then .ok .versatiles
  else .panicked (unknownExtensionMsg extension)

/-- Rust `Path::extension()` of the path: `None` when the file name
contains no '.' beyond a possible leading one, otherwise the portion after
the last '.'. -/
def pathExtension (filename : String) : Option String :=
  let fileName := (splitOnChar filename.data '/').getLastD []
  let parts := splitOnChar fileName '.'
  if parts.length ≤ 1 then none
  else if parts.headD [] = [] ∧ parts.length = 2 then none
  else some (parts.getLastD []).asString

/-- The backtick character, for panic messages produced by the standard
library. -/
def bq : String := String.singleton (Char.ofNat 96)

/-- The panic message of `Option::unwrap()` on `None`. -/
def unwrapNoneMsg : String :=
  "called " ++ bq ++ "Option::unwrap()" ++ bq ++ " on a " ++ bq ++ "None" ++ bq ++ " value"

/-- `get_converter` from versatiles_container/src/lib.rs:
`Path::extension().unwrap()` (panicking when the path has no extension),
then dispatch; the "mbtiles" arm is commented out in the source, so the
"mbtiles" extension falls into the unknown-extension panic. -/
def get_converter (filename : String) : Outcome ContainerError ContainerKind :=
  match pathExtension filename with
  | none => .panicked unwrapNoneMsg
  | some extension =>
    if extension = "versatiles" then .ok .versatiles
    else if extension = "tar" then .ok .tar
    else .panicked (unknownExtensionMsg extension)

/-- `TileConverterConfig` is external to the files under study; its
contents are irrelevant to the MBT stub. -/
structure TileConverterConfig : Type where

/-- A boxed tile reader, opaque at this level. -/
structure TileReaderBox : Type where

/-- The unit struct `TileConverter` of mbtiles/converter.rs. -/
structure MbtTileConverter : Type where

/-- `TileConverterTrait::new` for the MBT converter
(mbtiles/converter.rs): an unconditional panic. -/
def MbtTileConverter.new (_filename : String) (_config : TileConverterConfig) :
    Outcome ContainerError MbtTileConverter :=
  .panicked "conversion to mbtiles is not supported"

/-- `TileConverterTrait::convert_from` for the MBT converter
(mbtiles/converter.rs): an unconditional panic; no byte is ever written. -/
def MbtTileConverter.convert_from (_c : MbtTileConverter) (_reader : TileReaderBox) :
    Outcome ContainerError Unit :=
  .panicked "conversion to mbtiles is not supported"

/-- C1 refuted at a concrete input: the MBT `TileConverter::new` and
`convert_from` do not return an `Unsupported` error — they panic with
"conversion to mbtiles is not supported", so no error value is ever
returned. -/
theorem claim_c1_counterexample :
    MbtTileConverter.new "filename.txt" {} =
      .panicked "conversion to mbtiles is not supported" ∧
    (MbtTileConverter.new "filename.txt" {}).isErr = false ∧
    MbtTileConverter.convert_from {} {} =
      .panicked "conversion to mbtiles is not supported" ∧
    (MbtTileConverter.convert_from {} {}).isErr = false :=
  ⟨rfl, rfl, rfl, rfl⟩

/-- C1 (amended): the MBT write path never writes and never succeeds, but
it panics instead of returning `Unsupported`: for every filename and
converter config, `TileConverterTrait::new` panics with "conversion to
mbtiles is not supported", and for every reader, `convert_from` panics
with the same message. -/
theorem claim_c1 :
    (∀ (filename : String) (config : TileConverterConfig),
      MbtTileConverter.new filename config =
        .panicked "conversion to mbtiles is not supported") ∧
    (∀ (c : MbtTileConverter) (reader : TileReaderBox),
      MbtTileConverter.convert_from c reader =
        .panicked "conversion to mbtiles is not supported") :=
  ⟨fun _ _ => rfl, fun _ _ => rfl⟩

/-- C8: `get_reader` panics with the unknown-extension message whenever
the last '.'-separated segment of the filename is none of "mbtiles",
"tar", "versatiles"; `get_converter` panics for every path extension other
than "versatiles" and "tar" — in particular for an ".mbtiles" output path,
whose branch is commented out. -/
theorem claim_c8 :
    (∀ filename : String,
      lastDotSegment filename ∉ ["mbtiles", "tar", "versatiles"] →
      get_reader filename = .panicked (unknownExtensionMsg (lastDotSegment filename))) ∧
    (∀ (filename ext : String), pathExtension filename = some ext →
      ext ∉ ["versatiles", "tar"] →
      get_converter filename = .panicked (unknownExtensionMsg ext)) ∧
    get_converter "output.mbtiles" = .panicked (unknownExtensionMsg "mbtiles") := by
  refine ⟨?_, ?_, ?_⟩
  · intro filename hno
    simp only [List.mem_cons, List.mem_singleton, List.not_mem_nil, or_false] at hno
    push_neg at hno
    obtain ⟨h1, h2, h3⟩ := hno
    simp only [get_reader, if_neg h1, if_neg h2, if_neg h3]
  · intro filename ext hext hno
    simp only [List.mem_cons, List.mem_singleton, List.not_mem_nil, or_false] at hno
    push_neg at hno
    obtain ⟨h1, h2⟩ := hno
    simp only [get_converter, hext, if_neg h1, if_neg h2]
  · rfl

theorem claim_c8_witness :
    get_reader "tiles.foo" = .panicked (unknownExtensionMsg (lastDotSegment "tiles.foo")) ∧
    get_converter "tiles.foo" = .panicked (unknownExtensionMsg "foo") :=
  ⟨claim_c8.1 "tiles.foo" (by decide),
   claim_c8.2.1 "tiles.foo" "foo" (by decide) (by decide)⟩

/-! ### TilesReader contract (versatiles_core/src/types/tiles_reader.rs)

The trait's default methods `get_tile_json` and `get_bbox_tile_stream` are
in the provided sources; the types they build on (`TileBBox`,
`TileBBoxPyramid`, `TileStream`, `JsonValue`) are not, and are modelled
from the spec. -/

abbrev Blob := List Nat

structure TileCoord3 where
  z : Nat
  x : Nat
  y : Nat
deriving DecidableEq

structure TileBBox where
  z : Nat
  xMin : Nat
  yMin : Nat
  xMax : Nat
  yMax : Nat
deriving DecidableEq

/-- Modelled from the spec (§4.1): `TileBBox::iter_coords` yields the
bbox's coordinates in row-major order (y outer, x inner). -/
def TileBBox.iterCoords (b : TileBBox) : List TileCoord3 :=
  (List.range (b.yMax + 1 - b.yMin)).flatMap fun dy =>
    (List.range (b.xMax + 1 - b.xMin)).map fun dx =>
      ⟨b.z, b.xMin + dx, b.yMin + dy⟩

/-- Modelled from the spec: a bbox pyramid, represented by its non-empty
levels, each a zoom paired with the bbox at that zoom. -/
structure TileBBoxPyramid where
  levels : List (Nat × TileBBox)
deriving DecidableEq

/-- `get_zoom_min`: the smallest zoom among the non-empty levels, `None`
for an empty pyramid.  Modelled from the spec. -/
def TileBBoxPyramid.getZoomMin (p : TileBBoxPyramid) : Option Nat :=
  (p.levels.map Prod.fst).min?

/-- `get_zoom_max`: the largest zoom among the non-empty levels, `None`
for an empty pyramid.  Modelled from the spec. -/
def TileBBoxPyramid.getZoomMax (p : TileBBoxPyramid) : Option Nat :=
  (p.levels.map Prod.fst).max?

/-- Modelled from the spec: a JSON value (the `JsonValue` utility is not
among the provided sources).  Numbers are exact rationals; an object is a
key-value list whose keys are unique (the source uses a `BTreeMap`). -/
inductive JsonValue : Type where
  | str (s : String)
  | num (q : ℚ)
  | boolean (b : Bool)
  | null
  | arr (items : List JsonValue)
  | obj (entries : List (String × JsonValue))

/-- Key lookup in a JSON object's entry list. -/
def lookupKey : List (String × JsonValue) → String → Option JsonValue
  | [], _ => none
  | (k0, v) :: rest, k => if k0 = k then some v else lookupKey rest k

/-- Map-style insertion in a JSON object's entry list: replace the
existing binding or append a new one. -/
def setKey : List (String × JsonValue) → String → JsonValue → List (String × JsonValue)
  | [], k, v => [(k, v)]
  | (k0, v0) :: rest, k, v =>
    if k0 = k then (k, v) :: rest else (k0, v0) :: setKey rest k v

/-- Modelled from the spec: `object_set_key_value` sets one key on a JSON
object and fails on a non-object. -/
def JsonValue.objectSetKeyValue : JsonValue → String → JsonValue → Except String JsonValue
  | .obj entries, k, v => .ok (.obj (setKey entries k v))
  | _, _, _ => .error "value is not an object"

/-- Modelled from the spec: `object_assign` merges the second object's
keys into the first (source values overwrite on collision, like JS
`Object.assign`), failing when either side is not an object. -/
def JsonValue.objectAssign : JsonValue → JsonValue → Except String JsonValue
  | .obj entries, .obj source =>
    .ok (.obj (source.foldl (fun acc kv => setKey acc kv.1 kv.2) entries))
  | _, _ => .error "value is not an object"

/-- A tile reader, as far as the default trait methods consult it: the
declared bbox pyramid, the fallible metadata of `get_meta` — modelled
already parsed, i.e. with `JsonValue::parse` the identity on it — and the
per-coordinate `get_tile_data`.  Modelled from the spec §4.4 (the trait's
required methods). -/
structure TilesReader where
  bbox_pyramid : TileBBoxPyramid
  meta : Except String (Option JsonValue)
  tile_data : TileCoord3 → Except String (Option Blob)

/-- `get_tile_json` of `TilesReaderTrait` (tiles_reader.rs).  `geo` stands
for `TileBBoxPyramid::get_geo_bbox` (the floating-point Web Mercator
conversion, abstracted to an arbitrary function into exact rationals,
giving `[west, south, east, north]`).  The final serialization
`Blob::from(meta.as_string()?)` is modelled as the identity on the JSON
value.  Faithful to the source's order: `get_meta()?` first, then the
`unwrap`s of `get_zoom_min`/`get_zoom_max` (a panic on an empty pyramid),
then the TileJSON skeleton, the optional "tiles" key, and the merge of the
original metadata. -/
def getTileJson (geo : TileBBoxPyramid → ℚ × ℚ × ℚ × ℚ) (r : TilesReader)
    (tilesUrl : Option String) : Outcome String JsonValue :=
  match r.meta with
  | .error e => .err e
  | .ok metaOriginal =>
    let pyramide := r.bbox_pyramid
    let bbox := geo pyramide
    match pyramide.getZoomMin, pyramide.getZoomMax with
    | some zoomMin, some zoomMax =>
      let meta0 : JsonValue := .obj [
        ("tilejson", .str "3.0.0"),
        ("bounds", .arr [.num bbox.1, .num bbox.2.1, .num bbox.2.2.1, .num bbox.2.2.2]),
        ("minzoom", .num zoomMin),
        ("maxzoom", .num zoomMax),
        ("center", .arr [
          .num ((bbox.1 + bbox.2.2.1) / 2),
          .num ((bbox.2.1 + bbox.2.2.2) / 2),
          .num (min (zoomMin + 2) zoomMax)])]
      let step1 : Except String JsonValue :=
        match tilesUrl with
        | none => .ok meta0
        | some url => meta0.objectSetKeyValue "tiles" (.arr [.str url])
      match step1 with
      | .error e => .err e
      | .ok meta1 =>
        match metaOriginal with
        | none => .ok meta1
        | some original =>
          match meta1.objectAssign original with
          | .error e => .err e
          | .ok meta2 => .ok meta2
    | _, _ => .panicked unwrapNoneMsg

/-- Rust `Result::unwrap_or`. -/
def exceptUnwrapOr {ε α : Type} : Except ε α → α → α
  | .ok a, _ => a
  | .error _, d => d

/-- Modelled from the spec §4.8: `TileStream::from_coord_vec_async` with a
tile-producing closure.  The bounded-concurrency, arbitrary-order stream
is modelled as the list of its produced items in coordinate order, with
`None` results dropped. -/
def fromCoordVecAsync (coords : List TileCoord3)
    (f : TileCoord3 → Option (TileCoord3 × Blob)) : List (TileCoord3 × Blob) :=
  coords.filterMap f

/-- The default `get_bbox_tile_stream` of `TilesReaderTrait`
(tiles_reader.rs): collect `bbox.iter_coords()`, then per coordinate fetch
`get_tile_data` and turn the result into an optional `(coord, blob)` pair
via `.map(|o| o.map(|b| (coord, b))).unwrap_or(None)` — so `Ok(None)` and
`Err(_)` both become `None` and are dropped. -/
def getBboxTileStream (r : TilesReader) (bbox : TileBBox) : List (TileCoord3 × Blob) :=
  fromCoordVecAsync bbox.iterCoords fun coord =>
    exceptUnwrapOr ((r.tile_data coord).map fun o => o.map fun blob => (coord, blob)) none

/-! #### JSON object lemmas -/

lemma lookupKey_setKey_same (l : List (String × JsonValue)) (k : String) (v : JsonValue) :
    lookupKey (setKey l k v) k = some v := by
  induction l with
  | nil => simp [setKey, lookupKey]
  | cons kv rest ih =>
    obtain ⟨k0, v0⟩ := kv
    by_cases h : k0 = k
    · simp [setKey, h, lookupKey]
    · simp [setKey, h, lookupKey, ih]

lemma lookupKey_setKey_ne (l : List (String × JsonValue)) (k q : String) (v : JsonValue)
    (h : q ≠ k) : lookupKey (setKey l k v) q = lookupKey l q := by
  induction l with
  | nil =>
    simp only [setKey, lookupKey]
    rw [if_neg (fun he => h he.symm)]
  | cons kv rest ih =>
    obtain ⟨k0, v0⟩ := kv
    by_cases h0 : k0 = k
    · subst h0
      simp only [setKey, if_pos rfl, lookupKey]
      rw [if_neg (fun he => h he.symm), if_neg (fun he => h he.symm)]
    · simp only [setKey, if_neg h0, lookupKey]
      by_cases hq : k0 = q
      · rw [if_pos hq, if_pos hq]
      · rw [if_neg hq, if_neg hq, ih]

/-- Folding `set_key` over the source entries leaves keys absent from the
source untouched. -/
lemma lookupKey_foldl_not_mem (source : List (String × JsonValue)) :
    ∀ (acc : List (String × JsonValue)) (k : String),
      k ∉ source.map Prod.fst →
      lookupKey (source.foldl (fun a kv => setKey a kv.1 kv.2) acc) k = lookupKey acc k := by
  induction source with
  | nil => intro acc k _; rfl
  | cons kv rest ih =>
    intro acc k hk
    obtain ⟨k0, v0⟩ := kv
    simp only [List.map_cons, List.mem_cons] at hk
    push_neg at hk
    obtain ⟨hne, hrest⟩ := hk
    simp only [List.foldl_cons]
    rw [ih (setKey acc k0 v0) k hrest, lookupKey_setKey_ne acc k0 k v0 hne]

/-- Folding `set_key` over source entries with pairwise-distinct keys
makes every source binding visible in the result. -/
lemma lookupKey_foldl_mem (source : List (String × JsonValue)) :
    ∀ (acc : List (String × JsonValue)) (k : String) (v : JsonValue),
      (source.map Prod.fst).Nodup → lookupKey source k = some v →
      lookupKey (source.foldl (fun a kv => setKey a kv.1 kv.2) acc) k = some v := by
  induction source with
  | nil => intro acc k v _ hlk; exact absurd hlk (by simp [lookupKey])
  | cons kv rest ih =>
    intro acc k v hnodup hlk
    obtain ⟨k0, v0⟩ := kv
    simp only [List.map_cons, List.nodup_cons] at hnodup
    obtain ⟨hk0, hrest⟩ := hnodup
    by_cases h : k0 = k
    · subst h
      have hv : v0 = v := by simpa [lookupKey] using hlk
      subst hv
      simp only [List.foldl_cons]
      rw [lookupKey_foldl_not_mem rest (setKey acc k0 v0) k0 hk0,
        lookupKey_setKey_same]
    · simp only [lookupKey, if_neg h] at hlk
      simp only [List.foldl_cons]
      exact ih (setKey acc k0 v0) k v hrest hlk

/-- C2: the default `get_bbox_tile_stream` yields exactly those
`(coord, blob)` pairs, with `coord` ranging over `bbox.iter_coords()`,
for which `get_tile_data(coord)` returns `Ok(Some(blob))`; coordinates
answering `Ok(None)` or `Err(_)` are dropped, and a per-tile error drops
only that tile. -/
theorem claim_c2 (r : TilesReader) (bbox : TileBBox) (c : TileCoord3) (b : Blob) :
    (c, b) ∈ getBboxTileStream r bbox ↔
      c ∈ bbox.iterCoords ∧ r.tile_data c = .ok (some b) := by
  unfold getBboxTileStream fromCoordVecAsync
  rw [List.mem_filterMap]
  constructor
  · rintro ⟨a, ha, hf⟩
    rcases hda : r.tile_data a with e | o
    · rw [hda] at hf
      simp only [Except.map, exceptUnwrapOr] at hf
      exact Option.noConfusion hf
    · rw [hda] at hf
      rcases o with _ | blob
      · simp only [Except.map, Option.map, exceptUnwrapOr] at hf
        exact Option.noConfusion hf
      · simp only [Except.map, Option.map, exceptUnwrapOr, Option.some.injEq,
          Prod.mk.injEq] at hf
        obtain ⟨hac, hbb⟩ := hf
        subst hac
        subst hbb
        exact ⟨ha, hda⟩
  · rintro ⟨hc, hd⟩
    exact ⟨c, hc, by simp [hd, Except.map, Option.map, exceptUnwrapOr]⟩

/-! #### TileJSON helper shapes -/

/-- The five-entry TileJSON skeleton built by `get_tile_json`. -/
def tileJsonBase (geo : TileBBoxPyramid → ℚ × ℚ × ℚ × ℚ) (p : TileBBoxPyramid)
    (zoomMin zoomMax : Nat) : List (String × JsonValue) :=
  [("tilejson", .str "3.0.0"),
   ("bounds", .arr [.num (geo p).1, .num (geo p).2.1, .num (geo p).2.2.1,
     .num (geo p).2.2.2]),
   ("minzoom", .num zoomMin),
   ("maxzoom", .num zoomMax),
   ("center", .arr [
     .num (((geo p).1 + (geo p).2.2.1) / 2),
     .num (((geo p).2.1 + (geo p).2.2.2) / 2),
     .num (min (zoomMin + 2) zoomMax)])]

/-- The TileJSON skeleton after the optional "tiles" key. -/
def tileJsonWithUrl (geo : TileBBoxPyramid → ℚ × ℚ × ℚ × ℚ) (p : TileBBoxPyramid)
    (zoomMin zoomMax : Nat) : Option String → List (String × JsonValue)
  | none => tileJsonBase geo p zoomMin zoomMax
  | some u => setKey (tileJsonBase geo p zoomMin zoomMax) "tiles" (.arr [.str u])

lemma getTileJson_meta_none (geo : TileBBoxPyramid → ℚ × ℚ × ℚ × ℚ) (r : TilesReader)
    (url : Option String) (zoomMin zoomMax : Nat)
    (hmin : r.bbox_pyramid.getZoomMin = some zoomMin)
    (hmax : r.bbox_pyramid.getZoomMax = some zoomMax)
    (hm : r.meta = .ok none) :
    getTileJson geo r url =
      .ok (.obj (tileJsonWithUrl geo r.bbox_pyramid zoomMin zoomMax url)) := by
  rcases url with _ | u <;>
    simp [getTileJson, hm, hmin, hmax, tileJsonWithUrl, tileJsonBase,
      JsonValue.objectSetKeyValue]

lemma getTileJson_meta_obj (geo : TileBBoxPyramid → ℚ × ℚ × ℚ × ℚ) (r : TilesReader)
    (url : Option String) (zoomMin zoomMax : Nat) (es : List (String × JsonValue))
    (hmin : r.bbox_pyramid.getZoomMin = some zoomMin)
    (hmax : r.bbox_pyramid.getZoomMax = some zoomMax)
    (hm : r.meta = .ok (some (.obj es))) :
    getTileJson geo r url =
      .ok (.obj (es.foldl (fun a kv => setKey a kv.1 kv.2)
        (tileJsonWithUrl geo r.bbox_pyramid zoomMin zoomMax url))) := by
  rcases url with _ | u <;>
    simp [getTileJson, hm, hmin, hmax, tileJsonWithUrl, tileJsonBase,
      JsonValue.objectSetKeyValue, JsonValue.objectAssign]

lemma lookupKey_withUrl_ne_tiles (geo : TileBBoxPyramid → ℚ × ℚ × ℚ × ℚ)
    (p : TileBBoxPyramid) (zoomMin zoomMax : Nat) (url : Option String) (k : String)
    (hk : k ≠ "tiles") :
    lookupKey (tileJsonWithUrl geo p zoomMin zoomMax url) k =
      lookupKey (tileJsonBase geo p zoomMin zoomMax) k := by
  rcases url with _ | u
  · rfl
  · exact lookupKey_setKey_ne _ _ _ _ hk

lemma lookupKey_withUrl_tiles (geo : TileBBoxPyramid → ℚ × ℚ × ℚ × ℚ)
    (p : TileBBoxPyramid) (zoomMin zoomMax : Nat) (u : String) :
    lookupKey (tileJsonWithUrl geo p zoomMin zoomMax (some u)) "tiles" =
      some (.arr [.str u]) :=
  lookupKey_setKey_same _ _ _

/-- The keys of the (parsed) metadata object of a reader, empty when the
metadata is absent, failed, or not an object. -/
def metaKeys (r : TilesReader) : List String :=
  match r.meta with
  | .ok (some (.obj es)) => es.map Prod.fst
  | _ => []

/-- C3 (amended): for every reader whose bbox pyramid is non-empty and
whose `get_meta` returns `Ok` of either nothing or a JSON object,
`get_tile_json(tiles_url)` returns a JSON object in which "tilejson" is
"3.0.0", "bounds" is the pyramid's geographic bbox, "minzoom"/"maxzoom"
are the pyramid's zoom bounds, "center" is
`[(west+east)/2, (south+north)/2, min(zoom_min+2, zoom_max)]`, and, when
`tiles_url` is given, "tiles" is `[tiles_url]` — each of these for the
keys the metadata object does not itself contain, since the metadata keys
are merged in last and overwrite on collision. -/
theorem claim_c3 (geo : TileBBoxPyramid → ℚ × ℚ × ℚ × ℚ) (r : TilesReader)
    (url : Option String) (zoomMin zoomMax : Nat)
    (hmin : r.bbox_pyramid.getZoomMin = some zoomMin)
    (hmax : r.bbox_pyramid.getZoomMax = some zoomMax)
    (hmeta : r.meta = .ok none ∨
      ∃ es, r.meta = .ok (some (.obj es)) ∧ (es.map Prod.fst).Nodup) :
    ∃ entries, getTileJson geo r url = .ok (.obj entries) ∧
      ("tilejson" ∉ metaKeys r →
        lookupKey entries "tilejson" = some (.str "3.0.0")) ∧
      ("bounds" ∉ metaKeys r →
        lookupKey entries "bounds" = some (.arr [.num (geo r.bbox_pyramid).1,
          .num (geo r.bbox_pyramid).2.1, .num (geo r.bbox_pyramid).2.2.1,
          .num (geo r.bbox_pyramid).2.2.2])) ∧
      ("minzoom" ∉ metaKeys r → lookupKey entries "minzoom" = some (.num zoomMin)) ∧
      ("maxzoom" ∉ metaKeys r → lookupKey entries "maxzoom" = some (.num zoomMax)) ∧
      ("center" ∉ metaKeys r →
        lookupKey entries "center" = some (.arr
          [.num (((geo r.bbox_pyramid).1 + (geo r.bbox_pyramid).2.2.1) / 2),
           .num (((geo r.bbox_pyramid).2.1 + (geo r.bbox_pyramid).2.2.2) / 2),
           .num (min (zoomMin + 2) zoomMax)])) ∧
      (∀ u, url = some u → "tiles" ∉ metaKeys r →
        lookupKey entries "tiles" = some (.arr [.str u])) ∧
      (∀ es k v, r.meta = .ok (some (.obj es)) → lookupKey es k = some v →
        lookupKey entries k = some v) := by
  rcases hmeta with hm | ⟨es, hm, hnd⟩
  · refine ⟨tileJsonWithUrl geo r.bbox_pyramid zoomMin zoomMax url,
      getTileJson_meta_none geo r url zoomMin zoomMax hmin hmax hm,
      ?_, ?_, ?_, ?_, ?_, ?_, ?_⟩
    · intro _
      rw [lookupKey_withUrl_ne_tiles geo r.bbox_pyramid zoomMin zoomMax url _ (by decide)]
      rfl
    · intro _
      rw [lookupKey_withUrl_ne_tiles geo r.bbox_pyramid zoomMin zoomMax url _ (by decide)]
      rfl
    · intro _
      rw [lookupKey_withUrl_ne_tiles geo r.bbox_pyramid zoomMin zoomMax url _ (by decide)]
      rfl
    · intro _
      rw [lookupKey_withUrl_ne_tiles geo r.bbox_pyramid zoomMin zoomMax url _ (by decide)]
      rfl
    · intro _
      rw [lookupKey_withUrl_ne_tiles geo r.bbox_pyramid zoomMin zoomMax url _ (by decide)]
      rfl
    · intro u hu _
      subst hu
      exact lookupKey_withUrl_tiles geo r.bbox_pyramid zoomMin zoomMax u
    · intro es' k v hcontra _
      rw [hm] at hcontra
      exact Option.noConfusion (Except.ok.inj hcontra)
  · have hkeys : metaKeys r = es.map Prod.fst := by simp [metaKeys, hm]
    refine ⟨es.foldl (fun a kv => setKey a kv.1 kv.2)
        (tileJsonWithUrl geo r.bbox_pyramid zoomMin zoomMax url),
      getTileJson_meta_obj geo r url zoomMin zoomMax es hmin hmax hm,
      ?_, ?_, ?_, ?_, ?_, ?_, ?_⟩
    · intro hk
      rw [hkeys] at hk
      rw [lookupKey_foldl_not_mem es _ _ hk,
        lookupKey_withUrl_ne_tiles geo r.bbox_pyramid zoomMin zoomMax url _ (by decide)]
      rfl
    · intro hk
      rw [hkeys] at hk
      rw [lookupKey_foldl_not_mem es _ _ hk,
        lookupKey_withUrl_ne_tiles geo r.bbox_pyramid zoomMin zoomMax url _ (by decide)]
      rfl
    · intro hk
      rw [hkeys] at hk
      rw [lookupKey_foldl_not_mem es _ _ hk,
        lookupKey_withUrl_ne_tiles geo r.bbox_pyramid zoomMin zoomMax url _ (by decide)]
      rfl
    · intro hk
      rw [hkeys] at hk
      rw [lookupKey_foldl_not_mem es _ _ hk,
        lookupKey_withUrl_ne_tiles geo r.bbox_pyramid zoomMin zoomMax url _ (by decide)]
      rfl
    · intro hk
      rw [hkeys] at hk
      rw [lookupKey_foldl_not_mem es _ _ hk,
        lookupKey_withUrl_ne_tiles geo r.bbox_pyramid zoomMin zoomMax url _ (by decide)]
      rfl
    · intro u hu hk
      rw [hkeys] at hk
      subst hu
      rw [lookupKey_foldl_not_mem es _ _ hk]
      exact lookupKey_withUrl_tiles geo r.bbox_pyramid zoomMin zoomMax u
    · intro es' k v hm' hlk
      have h1 : (Except.ok (some (JsonValue.obj es)) :
          Except String (Option JsonValue)) = .ok (some (.obj es')) := hm.symm.trans hm'
      have h2 : JsonValue.obj es = .obj es' := Option.some.inj (Except.ok.inj h1)
      have h3 : es = es' := by injection h2
      subst h3
      exact lookupKey_foldl_mem es _ k v hnd hlk

/-- The haversine-free stand-in for `get_geo_bbox` used in concrete
instances: the world bounds in degrees. -/
def sampleGeo : TileBBoxPyramid → ℚ × ℚ × ℚ × ℚ := fun _ => (-180, -85, 180, 85)

/-- A reader with a non-empty pyramid whose metadata is well-formed. -/
def sampleReader : TilesReader :=
  ⟨⟨[(2, ⟨2, 0, 0, 3, 3⟩)]⟩, .ok none, fun _ => .ok none⟩

theorem claim_c3_witness :
    ∃ entries, getTileJson sampleGeo sampleReader (some "https://tiles.example/t")
        = .ok (.obj entries) ∧
      lookupKey entries "tilejson" = some (.str "3.0.0") ∧
      lookupKey entries "minzoom" = some (.num 2) ∧
      lookupKey entries "tiles" = some (.arr [.str "https://tiles.example/t"]) := by
  obtain ⟨entries, h1, h2, _, h4, _, _, h7, _⟩ :=
    claim_c3 sampleGeo sampleReader (some "https://tiles.example/t") 2 2 rfl rfl (.inl rfl)
  exact ⟨entries, h1, h2 (by decide), h4 (by decide),
    h7 "https://tiles.example/t" rfl (by decide)⟩

/-- A reader with a non-empty pyramid whose `get_meta` fails. -/
def errMetaReader : TilesReader :=
  ⟨⟨[(3, ⟨3, 0, 0, 7, 7⟩)]⟩, .error "io error", fun _ => .ok none⟩

/-- A reader with a non-empty pyramid whose metadata object itself carries
a "tilejson" key. -/
def collideMetaReader : TilesReader :=
  ⟨⟨[(3, ⟨3, 0, 0, 7, 7⟩)]⟩, .ok (some (.obj [("tilejson", .str "2.0.0")])),
    fun _ => .ok none⟩

/-- The named lookup into a `get_tile_json` outcome, `none` unless the
outcome is a JSON object. -/
def tileJsonKey (o : Outcome String JsonValue) (k : String) : Option JsonValue :=
  match o with
  | .ok (.obj entries) => lookupKey entries k
  | _ => none

/-- C3 refuted as universally stated: a reader with a non-empty pyramid
whose `get_meta` fails makes `get_tile_json` return that error rather than
any JSON object, and a reader whose metadata object contains "tilejson"
has the computed value overwritten by the merge. -/
theorem claim_c3_counterexample :
    getTileJson sampleGeo errMetaReader (some "https://tiles.example/t") = .err "io error" ∧
    (getTileJson sampleGeo errMetaReader (some "https://tiles.example/t")).isErr = true ∧
    tileJsonKey (getTileJson sampleGeo collideMetaReader none) "tilejson" =
      some (.str "2.0.0") ∧
    tileJsonKey (getTileJson sampleGeo collideMetaReader none) "tilejson" ≠
      some (.str "3.0.0") := by
  refine ⟨rfl, rfl, rfl, ?_⟩
  intro h
  rw [show tileJsonKey (getTileJson sampleGeo collideMetaReader none) "tilejson" =
    some (.str "2.0.0") from rfl] at h
  exact absurd (JsonValue.str.inj (Option.some.inj h)) (by decide)

/-- C9 (amended): when the bbox pyramid has no levels and `get_meta`
returns `Ok`, `get_tile_json` panics with the `Option::unwrap` message
(the unwrap of `get_zoom_min`), instead of returning an `Err`. -/
theorem claim_c9 (geo : TileBBoxPyramid → ℚ × ℚ × ℚ × ℚ) (r : TilesReader)
    (url : Option String) (hempty : r.bbox_pyramid.levels = [])
    (hm : ∃ m, r.meta = .ok m) :
    getTileJson geo r url = .panicked unwrapNoneMsg := by
  obtain ⟨m, hm⟩ := hm
  have hmin : r.bbox_pyramid.getZoomMin = none := by
    simp [TileBBoxPyramid.getZoomMin, hempty]
  have hmax : r.bbox_pyramid.getZoomMax = none := by
    simp [TileBBoxPyramid.getZoomMax, hempty]
  simp [getTileJson, hm, hmin, hmax]

/-- A reader declaring an empty bbox pyramid, with working metadata. -/
def emptyReaderOkMeta : TilesReader := ⟨⟨[]⟩, .ok none, fun _ => .ok none⟩

theorem claim_c9_witness :
    getTileJson sampleGeo emptyReaderOkMeta none = .panicked unwrapNoneMsg :=
  claim_c9 sampleGeo emptyReaderOkMeta none rfl ⟨none, rfl⟩

/-- A reader declaring an empty bbox pyramid whose `get_meta` fails. -/
def emptyReaderErrMeta : TilesReader := ⟨⟨[]⟩, .error "io error", fun _ => .ok none⟩

/-- C9 refuted as universally stated: `get_meta()?` runs before the
zoom unwraps, so an empty-pyramid reader whose `get_meta` fails makes
`get_tile_json` return an `Err` result without panicking. -/
theorem claim_c9_counterexample :
    getTileJson sampleGeo emptyReaderErrMeta none = .err "io error" ∧
    getTileJson sampleGeo emptyReaderErrMeta none ≠ .panicked unwrapNoneMsg := by
  refine ⟨rfl, ?_⟩
  intro h
  rw [show getTileJson sampleGeo emptyReaderErrMeta none = .err "io error" from rfl] at h
  exact Outcome.noConfusion h
